import Mathlib

/-!
Verification of the script-to-media assembly pipeline of `src/video_engine.py`
(repository `francobelloni85/create-video`).

The Python functions are shallowly embedded as executable Lean definitions:

* a Python dict script line becomes the structure `ScriptLine`, whose fields are
  `Option String` (a missing dict key is `none`, and Python string truthiness is
  the predicate `truthy`);
* the configured character map `config["characters"]` is represented by its key
  list `keys : List String` in dict insertion order (Python dicts iterate in
  insertion order, deterministically);
* external collaborators (Google TTS, PIL file loading, ffmpeg encoding) are
  modelled by explicit outcome oracles passed as function arguments, so every
  theorem quantifies over all possible collaborator behaviours;
* Python `//` integer division (floor division) is `Int.fdiv`;
* `list(set(...))` is modelled by an explicit `setOrder` function argument: within
  one CPython process, set iteration order is a deterministic function of the
  insertion sequence (the hash seed is fixed for the process), so the realised
  order is some fixed function of the inserted elements.
-/

namespace CreateVideo

/-- Python string truthiness of an optional dict value: `None` and `""` are falsy. -/
def truthy : Option String → Bool
  | none => false
  | some s => s ≠ ""

/-- Python `a or b` on two optional strings: the first operand if it is truthy,
otherwise the second operand (used at `video_engine.py:534`). -/
def pyOr (a b : Option String) : Option String :=
  if truthy a then a else b

/-- Python `str.lower()` (the pipeline only compares ASCII names): lowercase
every character, as a structurally evaluating map over the character list. -/
def pyLower (s : String) : String :=
  String.mk (s.data.map Char.toLower)

/-- Python `s.startswith(pre)` as a structurally evaluating test on the
character lists. -/
def pyStartsWith (s pre : String) : Bool :=
  pre.data.isPrefixOf s.data

/-- Model of `os.path.join` for the simple two-component uses in the pipeline. -/
def pathJoin (a b : String) : String := a ++ "/" ++ b

/-- Model of `os.path.abspath` relative to the process working directory `cwd`. -/
def absPath (cwd p : String) : String :=
  if pyStartsWith p "/" then p else pathJoin cwd p

/-- One parsed script line (a Python dict). `speaker`/`text` come from the
parser; `audio_file`/`audio_path`/`duration` are added by `generate_audio` and
`image_path` by `generate_frames`. -/
structure ScriptLine where
  speaker : Option String := none
  text : Option String := none
  audio_file : Option String := none
  audio_path : Option String := none
  duration : Option ℚ := none
  image_path : Option String := none
  deriving Repr, DecidableEq

/-- Embedding of `resolve_character_key` (`video_engine.py:80-108`).
`keys` is `config.get("characters", {}).keys()` in dict order. The four
strategies are: exact membership, case-insensitive equality, name starts with
key, key starts with name; empty name and the literal "Narrator" resolve to
`none` up front. -/
def resolve_character_key (name : String) (keys : List String) : Option String :=
  if name == "" || name == "Narrator" then none
  else if keys.contains name then some name
  else
    match keys.find? (fun k => pyLower k == pyLower name) with
    | some k => some k
    | none =>
      match keys.find? (fun k => pyStartsWith (pyLower name) (pyLower k)) with
      | some k => some k
      | none => keys.find? (fun k => pyStartsWith (pyLower k) (pyLower name))

/-- Resolver written from the specification text (section 4.1): an ordered rule
list, first match wins — rule 1: `none` on empty or "Narrator"; rule 2: exact
match; rule 3: case-insensitive match; rule 4: name starts-with key; rule 5:
key starts-with name; else `none`. Used as the refinement target for C1. -/
def resolveSpec (name : String) (keys : List String) : Option String :=
  if name == "" || name == "Narrator" then none
  else
    match keys.find? (fun k => k == name) with
    | some k => some k
    | none =>
      match keys.find? (fun k => pyLower k == pyLower name) with
      | some k => some k
      | none =>
        match keys.find? (fun k => pyStartsWith (pyLower name) (pyLower k)) with
        | some k => some k
        | none => keys.find? (fun k => pyStartsWith (pyLower k) (pyLower name))

/-- Contribution of one line to the roster set (`video_engine.py:117-121`): a
line contributes exactly when its speaker is present, non-empty, not the
literal "Narrator", and resolves to a configured key. The contribution is a
function of the speaker field alone. -/
def rosterEntry (keys : List String) (speaker : Option String) : Option String :=
  if truthy speaker && speaker != some "Narrator" then
    resolve_character_key (speaker.getD "") keys
  else none

/-- The sequence of keys inserted into the roster set by the loop of
`get_active_roster` (`video_engine.py:116-121`), in line order. -/
def collectResolved (parsed_script : List ScriptLine) (keys : List String) : List String :=
  parsed_script.filterMap (fun line => rosterEntry keys line.speaker)

/-- Embedding of `get_active_roster` (`video_engine.py:110-123`). The Python
`list(set(...))` is `setOrder` applied to the insertion sequence: within one
process, CPython set iteration order is a fixed function of the inserted
elements, abstracted here as the argument `setOrder`. -/
def get_active_roster (setOrder : List String → List String)
    (parsed_script : List ScriptLine) (keys : List String) : List String :=
  setOrder (collectResolved parsed_script keys)

/-- Path of the audio file written for line `i` by `generate_single_audio`
(`video_engine.py:329-331`): `os.path.abspath(os.path.join(output_dir, f"audio_{i}.mp3"))`. -/
def audioFilePath (cwd output_dir : String) (i : Nat) : String :=
  absPath cwd (pathJoin output_dir ("audio_" ++ toString i ++ ".mp3"))

/-- Embedding of `generate_single_audio` (`video_engine.py:264-343`). The oracle
`tts : Nat → Option ℚ` collapses every collaborator outcome for line `i`: client
initialisation failure, missing voice params, or a TTS API error give `none`
(the Python function returns `(None, 0.0)`); success gives `some duration` and
the function returns the absolute `audio_<i>.mp3` path. -/
def generate_single_audio (i : Nat) (cwd output_dir : String) (tts : Nat → Option ℚ) :
    Option String × ℚ :=
  match tts i with
  | none => (none, 0)
  | some d => (some (audioFilePath cwd output_dir i), d)

/-- Body of the `generate_audio` loop for line `i` (`video_engine.py:355-370`):
lines with a falsy speaker or text pass through unmodified; otherwise on a
successful synthesis the line gains `audio_file`, `audio_path` (both set to the
same path) and `duration`. -/
def genAudioLine (cwd output_dir : String) (tts : Nat → Option ℚ) (i : Nat)
    (line : ScriptLine) : ScriptLine :=
  if !(truthy line.speaker) || !(truthy line.text) then line
  else
    match generate_single_audio i cwd output_dir tts with
    | (some fp, d) => { line with audio_file := some fp, audio_path := some fp, duration := some d }
    | (none, _) => line

/-- Index-aware map mirroring Python `for i, line in enumerate(...)` loops that
rebuild a list in order. -/
def mapWithIndex (f : Nat → α → β) : Nat → List α → List β
  | _, [] => []
  | i, a :: as => f i a :: mapWithIndex f (i + 1) as

/-- Embedding of `generate_audio` (`video_engine.py:345-375`): processes lines in
order, appending each (possibly updated) line to the output list. -/
def generate_audio (parsed_script : List ScriptLine) (cwd output_dir : String)
    (tts : Nat → Option ℚ) : List ScriptLine :=
  mapWithIndex (genAudioLine cwd output_dir tts) 0 parsed_script

/-- Speaking-state opacity decision of `generate_frames` (`video_engine.py:465-472`):
the sprite of roster member `char_name` has its alpha channel scaled to 50%
exactly when the line's speaker is the literal "Narrator" or the speaker does
not resolve to `char_name`. A missing speaker key (`none`) resolves like the
empty string, as in the Python (`resolve_character_key(None, ...)`). -/
def char_alpha_half (speaker : Option String) (keys : List String) (char_name : String) : Bool :=
  let current_speaker_key := resolve_character_key (speaker.getD "") keys
  let is_active := current_speaker_key == some char_name
  let is_narrator := speaker == some "Narrator"
  is_narrator || !is_active

/-- Per-line sprite paste list of the stage layer (`video_engine.py:454-479`):
iterate the roster in order, skip members whose sprite did not load
(`char_name not in roster_images`), and record for each pasted member whether its
alpha was halved (`char_alpha_half`). -/
def linePastes (roster loaded keys : List String) (speaker : Option String) :
    List (String × Bool) :=
  roster.filterMap (fun c =>
    if loaded.contains c then some (c, char_alpha_half speaker keys c) else none)

/-- Path of the frame written for line `i` (`video_engine.py:508-509`). -/
def framePath (output_dir : String) (i : Nat) : String :=
  pathJoin output_dir ("frame_" ++ toString i ++ ".png")

/-- Rendered frame of one line: the saved file and the sprite paste list. -/
structure FrameModel where
  path : String
  pastes : List (String × Bool)
  deriving Repr, DecidableEq

/-- Embedding of `generate_frames` (`video_engine.py:377-517`), returning the
updated script and the list of frames written. Oracles: `fontOk` is whether
`ImageFont.truetype` succeeds (on failure the code falls back to
`ImageFont.load_default()` and proceeds — the chosen font only affects glyph
metrics, which are abstracted); `balloonOk` is whether opening the balloon image
succeeds (on `FileNotFoundError` the code returns `parsed_script` unmodified
before the render loop); `spriteLoaded c` is whether roster member `c` has an
`image` entry in config and PIL loads it (`video_engine.py:414-427`). If no
sprite at all loaded, the code also returns the script unmodified
(`video_engine.py:429-432`). Otherwise every line is rendered: its sprite pastes
follow `linePastes`, the frame is saved as `frame_<i>.png`, and the line gains
`image_path`. -/
def generate_frames (parsed_script : List ScriptLine) (roster keys : List String)
    (fontOk balloonOk : Bool) (spriteLoaded : String → Bool) (output_dir : String) :
    List ScriptLine × List FrameModel :=
  if !balloonOk then (parsed_script, [])
  else
    let loaded := roster.filter spriteLoaded
    if loaded.isEmpty then (parsed_script, [])
    else
      (mapWithIndex (fun i line => { line with image_path := some (framePath output_dir i) })
         0 parsed_script,
       mapWithIndex (fun i line =>
         { path := framePath output_dir i,
           pastes := linePastes roster loaded keys line.speaker })
         0 parsed_script)

/-- Canvas width in pixels (`video_engine.py:385`). -/
def videoWidth : Int := 1080

/-- Canvas height in pixels (`video_engine.py:386`). -/
def videoHeight : Int := 1920

/-- Balloon width after resizing to 90% of the canvas width
(`video_engine.py:402`): `int(1080 * 0.9) = 972` (the double product is exact). -/
def balloonWidth : Int := 972

/-- Normalised character sprite height (`video_engine.py:411`). -/
def targetCharHeight : Int := 900

/-- Vertical buffer between balloon and characters (`video_engine.py:437`). -/
def bufferSpace : Int := 50

/-- Balloon top Y (`video_engine.py:438-439`): the stack of balloon, buffer and
characters is vertically centred on the canvas, with Python floor division. -/
def balloon_y (balloonHeight : Int) : Int :=
  Int.fdiv (videoHeight - (balloonHeight + bufferSpace + targetCharHeight)) 2

/-- Balloon left X (`video_engine.py:482`). -/
def balloon_x : Int := Int.fdiv (videoWidth - balloonWidth) 2

/-- Horizontal centre used for the text (`video_engine.py:493`): the canvas
centre, which coincides with the balloon centre since the balloon is centred. -/
def balloon_center_x : Int := Int.fdiv videoWidth 2

/-- Vertical balloon centre (`video_engine.py:494`). -/
def balloon_center_y (balloonHeight : Int) : Int :=
  balloon_y balloonHeight + Int.fdiv balloonHeight 2

/-- Text draw X for a wrapped text block of width `textWidth`
(`video_engine.py:496`). -/
def text_x (textWidth : Int) : Int :=
  balloon_center_x - Int.fdiv textWidth 2

/-- Text draw Y for a wrapped text block of height `textHeight`
(`video_engine.py:497`). -/
def text_y (balloonHeight textHeight : Int) : Int :=
  balloon_center_y balloonHeight - Int.fdiv textHeight 2

/-- Asset check of the `assemble_video` loop (`video_engine.py:533-536`):
the line is skipped unless `image_path` is truthy and
`line.get("audio_file") or line.get("audio_path")` is truthy. -/
def lineHasAssets (line : ScriptLine) : Bool :=
  truthy line.image_path && truthy (pyOr line.audio_file line.audio_path)

/-- Error message logged when encoding segment `i` fails
(`video_engine.py:565,568`). -/
def ffmpegSegmentError (i : Nat) : String :=
  "FFmpeg Error on segment " ++ toString i

/-- Error message logged when the loop built no segments (`video_engine.py:575`). -/
def noSegmentsError : String := "No segments created."

/-- Error message logged when the final concatenation fails
(`video_engine.py:599,602`). -/
def concatError : String := "FFmpeg Concat Error"

/-- Segment building loop of `assemble_video` (`video_engine.py:532-572`),
returning the indices appended to `segment_files` in append order together with
the error-level log messages of the loop. `encodeOk i` is the ffmpeg outcome for
segment `i` (external collaborator). Lines missing assets produce only a
warning, not an error. -/
def assembleLoop (encodeOk : Nat → Bool) : Nat → List ScriptLine → List Nat × List String
  | _, [] => ([], [])
  | i, line :: rest =>
    if lineHasAssets line then
      if encodeOk i then
        (i :: (assembleLoop encodeOk (i + 1) rest).1, (assembleLoop encodeOk (i + 1) rest).2)
      else
        ((assembleLoop encodeOk (i + 1) rest).1,
          ffmpegSegmentError i :: (assembleLoop encodeOk (i + 1) rest).2)
    else assembleLoop encodeOk (i + 1) rest

/-- Absolute path of segment `i` (`video_engine.py:540-542`). -/
def segmentPath (cwd temp_dir : String) (i : Nat) : String :=
  absPath cwd (pathJoin temp_dir ("segment_" ++ toString i ++ ".mp4"))

/-- An ASCII single-quote character, used in the concat manifest entries. -/
def singleQuote : String := String.singleton (Char.ofNat 39)

/-- One line of `file_list.txt` (`video_engine.py:587`): `file` followed by the
single-quoted segment path. -/
def manifestEntry (seg : String) : String :=
  "file " ++ singleQuote ++ seg ++ singleQuote

/-- Result of `assemble_video`: the built segment indices, the concat manifest
(`file_list.txt`) lines as written, the error-level log messages, and the
returned value. -/
structure AssembleResult where
  segments : List Nat
  manifest : List String
  errors : List String
  result : Option String
  deriving Repr, DecidableEq

/-- Embedding of `assemble_video` (`video_engine.py:519-603`). `encodeOk` and
`concatOk` are the ffmpeg collaborator outcomes for the per-segment encodes and
the final concatenation. If the loop built no segments the function logs
`noSegmentsError` once and returns `none`; otherwise it writes the manifest
listing the built segments in order and, when concatenation succeeds, returns
the absolute path of the output file. -/
def assemble_video (parsed_script : List ScriptLine) (encodeOk : Nat → Bool)
    (concatOk : Bool) (cwd output_dir output_filename : String) : AssembleResult :=
  if (assembleLoop encodeOk 0 parsed_script).1.isEmpty then
    { segments := (assembleLoop encodeOk 0 parsed_script).1,
      manifest := [],
      errors := (assembleLoop encodeOk 0 parsed_script).2 ++ [noSegmentsError],
      result := none }
  else if concatOk then
    { segments := (assembleLoop encodeOk 0 parsed_script).1,
      manifest := (assembleLoop encodeOk 0 parsed_script).1.map
        (fun i => manifestEntry (segmentPath cwd (pathJoin output_dir "temp") i)),
      errors := (assembleLoop encodeOk 0 parsed_script).2,
      result := some (absPath cwd (pathJoin output_dir output_filename)) }
  else
    { segments := (assembleLoop encodeOk 0 parsed_script).1,
      manifest := (assembleLoop encodeOk 0 parsed_script).1.map
        (fun i => manifestEntry (segmentPath cwd (pathJoin output_dir "temp") i)),
      errors := (assembleLoop encodeOk 0 parsed_script).2 ++ [concatError],
      result := none }

/-! Helper lemmas. -/

/-- Finding an element equal to `name` is the same as a membership test. -/
theorem find_beq_self (keys : List String) (name : String) :
    keys.find? (fun k => k == name) = if keys.contains name then some name else none := by
  induction keys with
  | nil => rfl
  | cons k ks ih =>
    simp only [List.find?_cons, List.contains_cons]
    by_cases h : k = name
    · subst h; simp
    · have hb : (k == name) = false := by simp [h]
      have hb2 : (name == k) = false := by simp [Ne.symm h]
      simp [hb, hb2, ih]

/-- Whatever `resolve_character_key` returns is one of the configured keys. -/
theorem resolve_character_key_mem {name key : String} {keys : List String}
    (h : resolve_character_key name keys = some key) : key ∈ keys := by
  unfold resolve_character_key at h
  by_cases h0 : (name == "" || name == "Narrator") = true
  · rw [if_pos h0] at h; cases h
  · rw [if_neg h0] at h
    by_cases h1 : keys.contains name = true
    · rw [if_pos h1] at h
      cases h
      simpa using h1
    · rw [if_neg h1] at h
      cases hf1 : keys.find? (fun k => pyLower k == pyLower name) with
      | some k =>
        rw [hf1] at h; cases h
        exact List.mem_of_find?_eq_some hf1
      | none =>
        rw [hf1] at h
        cases hf2 : keys.find? (fun k => pyStartsWith (pyLower name) (pyLower k)) with
        | some k =>
          rw [hf2] at h; cases h
          exact List.mem_of_find?_eq_some hf2
        | none =>
          rw [hf2] at h
          exact List.mem_of_find?_eq_some h

/-- Claim C1: for every configured character-key set and every speaker name,
`resolve_character_key` returns `none` when the name is empty or is the literal
"Narrator"; otherwise it applies, first match winning: exact match, then
case-insensitive exact match, then name-starts-with-key, then
key-starts-with-name, else `none` (this is stated as equality with
`resolveSpec`, the rule chain written from the specification). In particular,
with keys `["Herbert", "Margot"]`: "Herbert Walker" resolves to "Herbert",
"HERBERT" resolves to "Herbert", and "Unknown" resolves to `none`. -/
theorem claim_C1 :
    (∀ keys : List String, resolve_character_key "" keys = none)
    ∧ (∀ keys : List String, resolve_character_key "Narrator" keys = none)
    ∧ (∀ (name : String) (keys : List String),
        resolve_character_key name keys = resolveSpec name keys)
    ∧ resolve_character_key "Herbert Walker" ["Herbert", "Margot"] = some "Herbert"
    ∧ resolve_character_key "HERBERT" ["Herbert", "Margot"] = some "Herbert"
    ∧ resolve_character_key "Unknown" ["Herbert", "Margot"] = none := by
  refine ⟨fun keys => rfl, fun keys => rfl, fun name keys => ?_, by decide, by decide, by decide⟩
  unfold resolve_character_key resolveSpec
  rw [find_beq_self]
  by_cases h0 : (name == "" || name == "Narrator") = true
  · simp [h0]
  · by_cases h1 : name ∈ keys
    · simp [h0, h1]
    · simp [h0, h1]

/-- The index-aware map preserves length. -/
theorem mapWithIndex_length (f : Nat → α → β) (n : Nat) (l : List α) :
    (mapWithIndex f n l).length = l.length := by
  induction l generalizing n with
  | nil => rfl
  | cons a t ih => simp [mapWithIndex, ih]

/-- Element `i` of the index-aware map started at `n` is `f (n + i)` of the
source element. -/
theorem mapWithIndex_getElem (f : Nat → α → β) :
    ∀ (l : List α) (n i : Nat), (mapWithIndex f n l)[i]? = (l[i]?).map (f (n + i)) := by
  intro l
  induction l with
  | nil => intro n i; simp [mapWithIndex]
  | cons a t ih =>
    intro n i
    cases i with
    | zero => simp [mapWithIndex]
    | succ j =>
      simp only [mapWithIndex, List.getElem?_cons_succ]
      have h : n + (j + 1) = (n + 1) + j := by omega
      rw [h]
      exact ih (n + 1) j

/-- Every pair recorded by `linePastes` carries the `char_alpha_half` decision
of its character. -/
theorem linePastes_mem {roster loaded keys : List String} {speaker : Option String}
    {c : String} {b : Bool}
    (h : (c, b) ∈ linePastes roster loaded keys speaker) :
    b = char_alpha_half speaker keys c := by
  unfold linePastes at h
  obtain ⟨a, _, hab⟩ := List.mem_filterMap.mp h
  by_cases hl : loaded.contains a = true
  · rw [if_pos hl] at hab
    have hp := Option.some.inj hab
    rw [Prod.ext_iff] at hp
    obtain ⟨h1, h2⟩ := hp
    simp only at h1 h2
    rw [← h1]
    exact h2.symm
  · rw [if_neg hl] at hab
    cases hab

/-- Narrator lines halve the alpha of every sprite. -/
theorem char_alpha_half_narrator (keys : List String) (c : String) :
    char_alpha_half (some "Narrator") keys c = true := by
  simp [char_alpha_half]

/-- For a non-Narrator speaker, a sprite keeps full alpha exactly when the
speaker resolves to it. -/
theorem char_alpha_half_eq_false_iff {speaker : Option String}
    (hn : speaker ≠ some "Narrator") (keys : List String) (c : String) :
    char_alpha_half speaker keys c = false
      ↔ resolve_character_key (speaker.getD "") keys = some c := by
  have hb : (speaker == some "Narrator") = false := by simpa using hn
  simp [char_alpha_half, hb]

/-- Claim C2: in `generate_frames`, for every rendered line and every roster
member whose sprite loaded: if the line's speaker is "Narrator", every pasted
sprite has its alpha scaled to 50%; otherwise the member whose key equals
`resolve_character_key speaker` is pasted at full alpha and every other member
at 50%. With roster `["A","B"]`, a line spoken by "A" yields A at full opacity
and B at half, and a Narrator line yields both at half. -/
theorem claim_C2 (parsed_script : List ScriptLine) (roster keys : List String)
    (fontOk : Bool) (spriteLoaded : String → Bool) (output_dir : String) :
    (∀ (i : Nat) (line : ScriptLine) (fr : FrameModel),
        parsed_script[i]? = some line →
        ((generate_frames parsed_script roster keys fontOk true spriteLoaded
            output_dir).2)[i]? = some fr →
        ((line.speaker = some "Narrator" → ∀ p ∈ fr.pastes, p.2 = true)
          ∧ (line.speaker ≠ some "Narrator" →
              ∀ p ∈ fr.pastes,
                (p.2 = false
                  ↔ resolve_character_key (line.speaker.getD "") keys = some p.1))))
    ∧ linePastes ["A", "B"] ["A", "B"] ["A", "B"] (some "A") = [("A", false), ("B", true)]
    ∧ linePastes ["A", "B"] ["A", "B"] ["A", "B"] (some "Narrator")
        = [("A", true), ("B", true)] := by
  refine ⟨?_, by decide, by decide⟩
  intro i line fr hline hfr
  unfold generate_frames at hfr
  rw [if_neg (by decide : ¬((!true) = true))] at hfr
  by_cases hload : (roster.filter spriteLoaded).isEmpty = true
  · rw [if_pos hload] at hfr
    simp at hfr
  · rw [if_neg hload] at hfr
    rw [mapWithIndex_getElem] at hfr
    rw [hline] at hfr
    have hfr2 := (Option.some.inj hfr).symm
    subst hfr2
    constructor
    · intro hn p hp
      obtain ⟨c, b⟩ := p
      have hb := linePastes_mem hp
      rw [hn] at hb
      simpa [char_alpha_half_narrator] using hb
    · intro hn p hp
      obtain ⟨c, b⟩ := p
      have hb := linePastes_mem hp
      rw [hb]
      exact char_alpha_half_eq_false_iff hn keys c

/-- Claim C2 witness: the C2 theorem applied to a one-line script spoken by
"A" with roster `["A","B"]` and every sprite loaded. -/
theorem claim_C2_witness :
    (false = false ↔ resolve_character_key "A" ["A", "B"] = some "A") :=
  ((claim_C2 [{ speaker := some "A", text := some "hi" }] ["A", "B"] ["A", "B"]
      true (fun _ => true) "output").1
    0 { speaker := some "A", text := some "hi" }
    { path := framePath "output" 0, pastes := [("A", false), ("B", true)] }
    (by decide) (by decide)).2 (by decide) ("A", false) (by decide)

/-- A roster entry is available exactly when the speaker is truthy, not the
Narrator literal, and resolves. -/
theorem rosterEntry_eq_none_of {keys : List String} {sp : Option String}
    (h : (truthy sp && sp != some "Narrator"
           && (resolve_character_key (sp.getD "") keys).isSome) = false) :
    rosterEntry keys sp = none := by
  unfold rosterEntry
  by_cases h1 : (truthy sp && sp != some "Narrator") = true
  · rw [if_pos h1]
    have h2 : (resolve_character_key (sp.getD "") keys).isSome = false := by
      simpa [h1] using h
    cases hr : resolve_character_key (sp.getD "") keys with
    | none => rfl
    | some k => rw [hr] at h2; simp at h2
  · rw [if_neg h1]

/-- Dropping the non-contributing lines does not change the roster insertion
sequence. -/
theorem collectResolved_filter (parsed_script : List ScriptLine) (keys : List String) :
    collectResolved (parsed_script.filter (fun line =>
        truthy line.speaker && line.speaker != some "Narrator"
          && (resolve_character_key (line.speaker.getD "") keys).isSome)) keys
      = collectResolved parsed_script keys := by
  induction parsed_script with
  | nil => rfl
  | cons a t ih =>
    simp only [List.filter_cons]
    by_cases hp : (truthy a.speaker && a.speaker != some "Narrator"
        && (resolve_character_key (a.speaker.getD "") keys).isSome) = true
    · rw [if_pos hp]
      simp only [collectResolved, List.filterMap_cons] at *
      cases hre : rosterEntry keys a.speaker <;> simp [hre, ih]
    · rw [if_neg hp]
      have ha : rosterEntry keys a.speaker = none :=
        rosterEntry_eq_none_of (by simpa using hp)
      simp only [collectResolved, List.filterMap_cons] at *
      simp [ha, ih]

/-- The insertion sequence depends only on the speaker fields. -/
theorem collectResolved_eq_map (parsed_script : List ScriptLine) (keys : List String) :
    collectResolved parsed_script keys
      = (parsed_script.map ScriptLine.speaker).filterMap (rosterEntry keys) := by
  rw [List.filterMap_map]
  rfl

/-- Claim C5 counterexample: the claim asserts that the literal "Narrator" is
never a roster member for every configured key set, but with "Narrator" itself
a configured character key, a line whose speaker is "narrator" (lower case, so
the Narrator skip does not fire) resolves case-insensitively to the key
"Narrator", which enters the roster. -/
theorem claim_C5_counterexample :
    "Narrator" ∈ get_active_roster List.dedup
      [{ speaker := some "narrator", text := some "hi" }] ["Narrator"] := by
  decide

/-- Claim C5 (amended): every element of the list returned by
`get_active_roster` is a configured character key reached from some script
line; provided "Narrator" is not itself a configured character key, it is
never a member of the roster; and lines whose speaker is empty, equals
"Narrator", or fails to resolve contribute nothing to the roster (dropping
them leaves the roster unchanged, without aborting). `setOrder` is the
process-fixed set iteration order, assumed only to preserve membership. -/
theorem claim_C5_amended (setOrder : List String → List String)
    (parsed_script : List ScriptLine) (keys : List String)
    (hOrd : ∀ (xs : List String) (a : String), a ∈ setOrder xs ↔ a ∈ xs) :
    (∀ r ∈ get_active_roster setOrder parsed_script keys,
        r ∈ keys ∧ ∃ line ∈ parsed_script,
          truthy line.speaker = true ∧ line.speaker ≠ some "Narrator"
            ∧ resolve_character_key (line.speaker.getD "") keys = some r)
    ∧ ("Narrator" ∉ keys → "Narrator" ∉ get_active_roster setOrder parsed_script keys)
    ∧ get_active_roster setOrder (parsed_script.filter (fun line =>
          truthy line.speaker && line.speaker != some "Narrator"
            && (resolve_character_key (line.speaker.getD "") keys).isSome)) keys
        = get_active_roster setOrder parsed_script keys := by
  have main : ∀ r ∈ get_active_roster setOrder parsed_script keys,
      r ∈ keys ∧ ∃ line ∈ parsed_script,
        truthy line.speaker = true ∧ line.speaker ≠ some "Narrator"
          ∧ resolve_character_key (line.speaker.getD "") keys = some r := by
    intro r hr
    have hr2 : r ∈ collectResolved parsed_script keys := (hOrd _ r).mp hr
    obtain ⟨line, hline, hres⟩ := List.mem_filterMap.mp hr2
    unfold rosterEntry at hres
    by_cases h1 : (truthy line.speaker && line.speaker != some "Narrator") = true
    · rw [if_pos h1] at hres
      rw [Bool.and_eq_true] at h1
      refine ⟨resolve_character_key_mem hres, line, hline, h1.1, ?_, hres⟩
      simpa using h1.2
    · rw [if_neg h1] at hres
      cases hres
  refine ⟨main, ?_, ?_⟩
  · intro hN hmem
    exact hN (main _ hmem).1
  · unfold get_active_roster
    rw [collectResolved_filter]

/-- Claim C5 witness: the amended theorem applied with the first-seen order
`List.dedup`, a one-line script and key set `["Herbert"]`. -/
theorem claim_C5_amended_witness :
    "Narrator" ∉ get_active_roster List.dedup
      [{ speaker := some "Herbert Walker", text := some "hi" }] ["Herbert"] :=
  (claim_C5_amended List.dedup
      [{ speaker := some "Herbert Walker", text := some "hi" }] ["Herbert"]
      (fun _ _ => List.mem_dedup)).2.1 (by decide)

/-- Claim C6: `get_active_roster` is deterministic in the two-run sense. The
set iteration order `setOrder` is fixed for the process, and the roster is a
function of the line speakers alone, so two calls on scripts with the same
speakers in the same order — in particular two renders of the very same
script, even after other stages mutated non-speaker fields — return the same
keys in the same list order. -/
theorem claim_C6 (setOrder : List String → List String) (keys : List String)
    (s1 s2 : List ScriptLine)
    (h : s1.map ScriptLine.speaker = s2.map ScriptLine.speaker) :
    get_active_roster setOrder s1 keys = get_active_roster setOrder s2 keys := by
  unfold get_active_roster
  rw [collectResolved_eq_map, collectResolved_eq_map, h]

/-- Claim C6 witness: rendering the same one-line script twice — the second
time after an audio stage added fields — yields the same roster. -/
theorem claim_C6_witness :
    get_active_roster List.dedup
        [{ speaker := some "Herbert", text := some "a" }] ["Herbert"]
      = get_active_roster List.dedup
        [{ speaker := some "Herbert", text := some "b",
           audio_file := some "x", audio_path := some "x" }] ["Herbert"] :=
  claim_C6 List.dedup ["Herbert"]
    [{ speaker := some "Herbert", text := some "a" }]
    [{ speaker := some "Herbert", text := some "b",
       audio_file := some "x", audio_path := some "x" }]
    (by decide)

/-- The audio loop body never changes the speaker, text or image fields. -/
theorem genAudioLine_fields (cwd output_dir : String) (tts : Nat → Option ℚ)
    (i : Nat) (line : ScriptLine) :
    (genAudioLine cwd output_dir tts i line).speaker = line.speaker
    ∧ (genAudioLine cwd output_dir tts i line).text = line.text
    ∧ (genAudioLine cwd output_dir tts i line).image_path = line.image_path := by
  unfold genAudioLine generate_single_audio
  by_cases hc : (!(truthy line.speaker) || !(truthy line.text)) = true
  · rw [if_pos hc]; exact ⟨rfl, rfl, rfl⟩
  · rw [if_neg hc]
    cases hd : tts i <;> simp

/-- A line with falsy speaker or text passes through the audio loop unmodified. -/
theorem genAudioLine_pass (cwd output_dir : String) (tts : Nat → Option ℚ)
    (i : Nat) (line : ScriptLine)
    (h : (truthy line.speaker && truthy line.text) = false) :
    genAudioLine cwd output_dir tts i line = line := by
  unfold genAudioLine
  cases hA : truthy line.speaker <;> cases hB : truthy line.text <;> simp_all

/-- A successfully synthesised line gains both audio keys (set to the same
`audio_<i>.mp3` path) and the duration. -/
theorem genAudioLine_success (cwd output_dir : String) (tts : Nat → Option ℚ)
    (i : Nat) (line : ScriptLine) (d : ℚ)
    (hT : (truthy line.speaker && truthy line.text) = true) (hd : tts i = some d) :
    genAudioLine cwd output_dir tts i line
      = { line with audio_file := some (audioFilePath cwd output_dir i),
                    audio_path := some (audioFilePath cwd output_dir i),
                    duration := some d } := by
  unfold genAudioLine generate_single_audio
  rw [hd]
  rw [Bool.and_eq_true] at hT
  rw [if_neg (by simp [hT.1, hT.2])]

/-- Claim C7: `generate_audio` returns a script of the same length with the
same lines in the same order (no reordering, no drops); lines whose speaker or
text is missing or empty pass through unmodified; and each successfully
processed line's audio file is named `audio_<i>.mp3` with `i` the line's
original index. -/
theorem claim_C7 (parsed_script : List ScriptLine) (cwd output_dir : String)
    (tts : Nat → Option ℚ) :
    (generate_audio parsed_script cwd output_dir tts).length = parsed_script.length
    ∧ ∀ (i : Nat) (line out : ScriptLine),
        parsed_script[i]? = some line →
        (generate_audio parsed_script cwd output_dir tts)[i]? = some out →
        (out.speaker = line.speaker ∧ out.text = line.text
          ∧ out.image_path = line.image_path
          ∧ ((truthy line.speaker && truthy line.text) = false → out = line)
          ∧ ∀ d : ℚ, tts i = some d →
              (truthy line.speaker && truthy line.text) = true →
              out.audio_file = some (audioFilePath cwd output_dir i)
              ∧ out.audio_path = some (audioFilePath cwd output_dir i)
              ∧ out.duration = some d) := by
  constructor
  · exact mapWithIndex_length _ 0 parsed_script
  · intro i line out hline hout
    unfold generate_audio at hout
    rw [mapWithIndex_getElem, hline, Nat.zero_add] at hout
    have hout2 := (Option.some.inj hout).symm
    subst hout2
    obtain ⟨h1, h2, h3⟩ := genAudioLine_fields cwd output_dir tts i line
    refine ⟨h1, h2, h3, fun hF => genAudioLine_pass cwd output_dir tts i line hF, ?_⟩
    intro d hd hT
    rw [genAudioLine_success cwd output_dir tts i line d hT hd]
    exact ⟨rfl, rfl, rfl⟩

/-- Claim C7 witness: the C7 theorem applied to a one-line script with a
successful synthesis of duration 2. -/
theorem claim_C7_witness :
    ({ speaker := some "Herbert", text := some "Hi",
       audio_file := some "/cwd/output/audio_0.mp3",
       audio_path := some "/cwd/output/audio_0.mp3",
       duration := some 2 : ScriptLine }).audio_file
        = some (audioFilePath "/cwd" "output" 0)
    ∧ ({ speaker := some "Herbert", text := some "Hi",
         audio_file := some "/cwd/output/audio_0.mp3",
         audio_path := some "/cwd/output/audio_0.mp3",
         duration := some 2 : ScriptLine }).audio_path
        = some (audioFilePath "/cwd" "output" 0)
    ∧ ({ speaker := some "Herbert", text := some "Hi",
         audio_file := some "/cwd/output/audio_0.mp3",
         audio_path := some "/cwd/output/audio_0.mp3",
         duration := some 2 : ScriptLine }).duration = some 2 :=
  ((claim_C7 [{ speaker := some "Herbert", text := some "Hi" }] "/cwd" "output"
      (fun _ => some 2)).2 0
    { speaker := some "Herbert", text := some "Hi" }
    { speaker := some "Herbert", text := some "Hi",
      audio_file := some "/cwd/output/audio_0.mp3",
      audio_path := some "/cwd/output/audio_0.mp3", duration := some 2 }
    (by decide) (by decide)).2.2.2.2 2 rfl (by decide)

/-- Members of the index-aware map are images of members of the source list. -/
theorem mapWithIndex_mem {f : Nat → α → β} :
    ∀ {l : List α} {n : Nat} {b : β},
      b ∈ mapWithIndex f n l → ∃ i a, a ∈ l ∧ b = f i a := by
  intro l
  induction l with
  | nil => intro n b hb; simp [mapWithIndex] at hb
  | cons x t ih =>
    intro n b hb
    rcases List.mem_cons.mp hb with hb1 | hb2
    · exact ⟨n, x, List.mem_cons_self x t, hb1⟩
    · obtain ⟨i, a, ha, hba⟩ := ih hb2
      exact ⟨i, a, List.mem_cons_of_mem x ha, hba⟩

/-- The audio loop body keeps the two audio keys equal when they start equal. -/
theorem genAudioLine_audio_eq (cwd output_dir : String) (tts : Nat → Option ℚ)
    (i : Nat) {line : ScriptLine} (h : line.audio_file = line.audio_path) :
    (genAudioLine cwd output_dir tts i line).audio_file
      = (genAudioLine cwd output_dir tts i line).audio_path := by
  unfold genAudioLine generate_single_audio
  by_cases hc : (!(truthy line.speaker) || !(truthy line.text)) = true
  · rw [if_pos hc]; exact h
  · rw [if_neg hc]
    cases hd : tts i <;> simp [h]

/-- Python `a or a` is `a`. -/
theorem pyOr_self (x : Option String) : pyOr x x = x := by
  unfold pyOr
  by_cases h : truthy x = true <;> simp [h]

/-- Claim C10: after `generate_audio` runs on a script whose lines carry no
audio fields, every output line has `audio_file` equal to `audio_path` (both
absent, or both the same path), so the `assemble_video` lookup
`audio_file or audio_path` yields the same path regardless of which key is
consulted. -/
theorem claim_C10 (parsed_script : List ScriptLine) (cwd output_dir : String)
    (tts : Nat → Option ℚ)
    (h : ∀ line ∈ parsed_script, line.audio_file = none ∧ line.audio_path = none) :
    ∀ out ∈ generate_audio parsed_script cwd output_dir tts,
      out.audio_file = out.audio_path
      ∧ pyOr out.audio_file out.audio_path = out.audio_file := by
  intro out hout
  obtain ⟨i, a, ha, rfl⟩ := mapWithIndex_mem hout
  have hfa := h a ha
  have heq : (genAudioLine cwd output_dir tts i a).audio_file
      = (genAudioLine cwd output_dir tts i a).audio_path :=
    genAudioLine_audio_eq cwd output_dir tts i (hfa.1.trans hfa.2.symm)
  refine ⟨heq, ?_⟩
  rw [heq, pyOr_self]

/-- Claim C10 witness: the C10 theorem applied to a one-line script with a
successful synthesis. -/
theorem claim_C10_witness :
    ({ speaker := some "A", text := some "t",
       audio_file := some "/cwd/output/audio_0.mp3",
       audio_path := some "/cwd/output/audio_0.mp3",
       duration := some 1 : ScriptLine }).audio_file
      = ({ speaker := some "A", text := some "t",
           audio_file := some "/cwd/output/audio_0.mp3",
           audio_path := some "/cwd/output/audio_0.mp3",
           duration := some 1 : ScriptLine }).audio_path :=
  (claim_C10 [{ speaker := some "A", text := some "t" }] "/cwd" "output"
      (fun _ => some 1) (by decide)
    { speaker := some "A", text := some "t",
      audio_file := some "/cwd/output/audio_0.mp3",
      audio_path := some "/cwd/output/audio_0.mp3", duration := some 1 }
    (by decide)).1

/-- Claim C8: a missing speech-balloon image makes `generate_frames` atomic in
failure: the script comes back unmodified (no line gains `image_path`) and no
frame file is produced. A missing font, by contrast, degrades to the default
font and rendering proceeds: with the balloon present and at least one sprite
loaded, every line still gains its `frame_<i>.png` path. -/
theorem claim_C8 (parsed_script : List ScriptLine) (roster keys : List String)
    (fontOk : Bool) (spriteLoaded : String → Bool) (output_dir : String) :
    generate_frames parsed_script roster keys fontOk false spriteLoaded output_dir
        = (parsed_script, [])
    ∧ ((roster.filter spriteLoaded).isEmpty = false →
        ∀ (i : Nat) (line : ScriptLine), parsed_script[i]? = some line →
          ((generate_frames parsed_script roster keys false true spriteLoaded
              output_dir).1)[i]?
            = some { line with image_path := some (framePath output_dir i) }) := by
  constructor
  · rfl
  · intro hload i line hline
    unfold generate_frames
    rw [if_neg (by decide : ¬((!true) = true))]
    rw [if_neg (by simp [hload])]
    dsimp only
    rw [mapWithIndex_getElem, hline, Nat.zero_add]
    rfl

/-- Claim C8 witness: the C8 theorem applied with a missing font, the balloon
present and one loaded sprite. -/
theorem claim_C8_witness :
    ((generate_frames [{ speaker := some "A", text := some "t" }] ["A"] ["A"]
        false true (fun _ => true) "output").1)[0]?
      = some { speaker := some "A", text := some "t",
               image_path := some (framePath "output" 0) } :=
  (claim_C8 [{ speaker := some "A", text := some "t" }] ["A"] ["A"]
      false (fun _ => true) "output").2 (by decide) 0
    { speaker := some "A", text := some "t" } rfl

/-- Floor division by two agrees with Euclidean division. -/
theorem fdiv_two_eq (a : Int) : Int.fdiv a 2 = a / 2 :=
  Int.fdiv_eq_ediv a (by norm_num)

/-- Claim C9: the computed text draw position centres the wrapped text block on
the balloon's bounding-box centre, both horizontally and vertically, within
integer-division rounding. Doubling both centres states "within one pixel" in
half-pixel units: `2 * (text_x + textWidth / 2) = 2 * text_x + textWidth`, and
likewise for the balloon, so each conjunct bounds twice the centre distance
by 2. -/
theorem claim_C9 (balloonHeight textWidth textHeight : Int)
    (hbh : 0 ≤ balloonHeight) (htw : 0 ≤ textWidth) (hth : 0 ≤ textHeight)
    (hnarrow : textWidth < balloonWidth) :
    |2 * text_x textWidth + textWidth - (2 * balloon_x + balloonWidth)| ≤ 2
    ∧ |2 * text_y balloonHeight textHeight + textHeight
        - (2 * balloon_y balloonHeight + balloonHeight)| ≤ 2 := by
  unfold text_x text_y balloon_center_x balloon_center_y balloon_x balloon_y
  unfold videoWidth videoHeight balloonWidth bufferSpace targetCharHeight
  simp only [fdiv_two_eq]
  constructor <;> rw [abs_le] <;> constructor <;> omega

/-- Claim C9 witness: the C9 theorem at a 400-pixel-high balloon and a
100-by-60 wrapped text block. -/
theorem claim_C9_witness :
    |2 * text_x 100 + 100 - (2 * balloon_x + balloonWidth)| ≤ 2
    ∧ |2 * text_y 400 60 + 60 - (2 * balloon_y 400 + 400)| ≤ 2 :=
  claim_C9 400 100 60 (by norm_num) (by norm_num) (by norm_num)
    (by norm_num [balloonWidth])

/-- Membership in the built segment list: index `j` was built exactly when it
is at least the starting index, its line has both assets, and its encode
succeeded. -/
theorem assembleLoop_mem (encodeOk : Nat → Bool) :
    ∀ (l : List ScriptLine) (n j : Nat),
      j ∈ (assembleLoop encodeOk n l).1
        ↔ n ≤ j ∧ ∃ line, l[j - n]? = some line
            ∧ lineHasAssets line = true ∧ encodeOk j = true := by
  intro l
  induction l with
  | nil => intro n j; simp [assembleLoop]
  | cons a t ih =>
    intro n j
    unfold assembleLoop
    by_cases ha : lineHasAssets a = true
    · by_cases he : encodeOk n = true
      · rw [if_pos ha, if_pos he]
        dsimp only
        rw [List.mem_cons, ih (n + 1) j]
        constructor
        · rintro (rfl | ⟨hn, line, hl, hA, hE⟩)
          · refine ⟨Nat.le_refl j, a, ?_, ha, he⟩
            rw [Nat.sub_self]
            simp
          · refine ⟨by omega, line, ?_, hA, hE⟩
            have hidx : j - n = (j - (n + 1)) + 1 := by omega
            rw [hidx, List.getElem?_cons_succ]
            exact hl
        · rintro ⟨hn, line, hl, hA, hE⟩
          by_cases hj : j = n
          · exact Or.inl hj
          · right
            have hidx : j - n = (j - (n + 1)) + 1 := by omega
            rw [hidx, List.getElem?_cons_succ] at hl
            exact ⟨by omega, line, hl, hA, hE⟩
      · rw [if_pos ha, if_neg he]
        dsimp only
        rw [ih (n + 1) j]
        constructor
        · rintro ⟨hn, line, hl, hA, hE⟩
          refine ⟨by omega, line, ?_, hA, hE⟩
          have hidx : j - n = (j - (n + 1)) + 1 := by omega
          rw [hidx, List.getElem?_cons_succ]
          exact hl
        · rintro ⟨hn, line, hl, hA, hE⟩
          by_cases hj : j = n
          · subst hj
            exact absurd hE he
          · have hidx : j - n = (j - (n + 1)) + 1 := by omega
            rw [hidx, List.getElem?_cons_succ] at hl
            exact ⟨by omega, line, hl, hA, hE⟩
    · rw [if_neg ha]
      rw [ih (n + 1) j]
      constructor
      · rintro ⟨hn, line, hl, hA, hE⟩
        refine ⟨by omega, line, ?_, hA, hE⟩
        have hidx : j - n = (j - (n + 1)) + 1 := by omega
        rw [hidx, List.getElem?_cons_succ]
        exact hl
      · rintro ⟨hn, line, hl, hA, hE⟩
        by_cases hj : j = n
        · subst hj
          rw [Nat.sub_self] at hl
          have hla : a = line := by simpa using hl
          rw [← hla] at hA
          exact absurd hA ha
        · have hidx : j - n = (j - (n + 1)) + 1 := by omega
          rw [hidx, List.getElem?_cons_succ] at hl
          exact ⟨by omega, line, hl, hA, hE⟩

/-- The built segment indices are strictly increasing: concatenation order is
original line order. -/
theorem assembleLoop_sorted (encodeOk : Nat → Bool) :
    ∀ (l : List ScriptLine) (n : Nat),
      ((assembleLoop encodeOk n l).1).Pairwise (· < ·) := by
  intro l
  induction l with
  | nil => intro n; simp [assembleLoop]
  | cons a t ih =>
    intro n
    unfold assembleLoop
    by_cases ha : lineHasAssets a = true
    · by_cases he : encodeOk n = true
      · rw [if_pos ha, if_pos he]
        dsimp only
        refine List.Pairwise.cons ?_ (ih (n + 1))
        intro j hj
        have hle := ((assembleLoop_mem encodeOk t (n + 1) j).mp hj).1
        omega
      · rw [if_pos ha, if_neg he]
        exact ih (n + 1)
    · rw [if_neg ha]
      exact ih (n + 1)

/-- Every error-level message of the segment loop is a per-segment ffmpeg
error. -/
theorem assembleLoop_errors (encodeOk : Nat → Bool) :
    ∀ (l : List ScriptLine) (n : Nat), ∀ e ∈ (assembleLoop encodeOk n l).2,
      ∃ i, e = ffmpegSegmentError i := by
  intro l
  induction l with
  | nil => intro n e he; simp [assembleLoop] at he
  | cons a t ih =>
    intro n e he
    unfold assembleLoop at he
    by_cases ha : lineHasAssets a = true
    · by_cases hek : encodeOk n = true
      · rw [if_pos ha, if_pos hek] at he
        exact ih (n + 1) e he
      · rw [if_pos ha, if_neg hek] at he
        rcases List.mem_cons.mp he with rfl | he2
        · exact ⟨n, rfl⟩
        · exact ih (n + 1) e he2
    · rw [if_neg ha] at he
      exact ih (n + 1) e he

/-- A per-segment ffmpeg error message is never the top-level
"No segments created." message. -/
theorem ffmpegSegmentError_ne (i : Nat) : ffmpegSegmentError i ≠ noSegmentsError := by
  intro h
  have hlen := congrArg String.length h
  rw [ffmpegSegmentError, noSegmentsError, String.length_append] at hlen
  have h1 : ("FFmpeg Error on segment ").length = 24 := rfl
  have h2 : ("No segments created.").length = 20 := rfl
  rw [h1, h2] at hlen
  omega

/-- When no line has both assets, the loop builds nothing and logs no error. -/
theorem assembleLoop_no_assets (encodeOk : Nat → Bool) :
    ∀ (l : List ScriptLine) (n : Nat),
      (∀ line ∈ l, lineHasAssets line = false) →
      assembleLoop encodeOk n l = ([], []) := by
  intro l
  induction l with
  | nil => intro n _; rfl
  | cons a t ih =>
    intro n h
    unfold assembleLoop
    rw [if_neg (by simp [h a (List.mem_cons_self a t)])]
    exact ih (n + 1) (fun line hl => h line (List.mem_cons_of_mem a hl))

/-- The returned segment field is always the loop's segment list. -/
theorem assemble_video_segments (parsed_script : List ScriptLine)
    (encodeOk : Nat → Bool) (concatOk : Bool) (cwd output_dir output_filename : String) :
    (assemble_video parsed_script encodeOk concatOk cwd output_dir
        output_filename).segments
      = (assembleLoop encodeOk 0 parsed_script).1 := by
  unfold assemble_video
  by_cases h1 : (assembleLoop encodeOk 0 parsed_script).1.isEmpty = true
  · rw [if_pos h1]
  · rw [if_neg h1]
    by_cases h2 : concatOk = true
    · rw [if_pos h2]
    · rw [if_neg h2]

/-- Claim C3: when `assemble_video` reaches concatenation, the concat manifest
lists exactly the successfully built `segment_<i>.mp4` files in strictly
increasing original line index: concatenation order equals the input script's
line order, with lines skipped for missing assets or failed encodes removed
and no reordering. -/
theorem claim_C3 (parsed_script : List ScriptLine) (encodeOk : Nat → Bool)
    (concatOk : Bool) (cwd output_dir output_filename : String)
    (h : (assemble_video parsed_script encodeOk concatOk cwd output_dir
            output_filename).segments ≠ []) :
    (assemble_video parsed_script encodeOk concatOk cwd output_dir
        output_filename).manifest
      = (assemble_video parsed_script encodeOk concatOk cwd output_dir
          output_filename).segments.map
          (fun i => manifestEntry (segmentPath cwd (pathJoin output_dir "temp") i))
    ∧ ((assemble_video parsed_script encodeOk concatOk cwd output_dir
          output_filename).segments).Pairwise (· < ·)
    ∧ ∀ i : Nat,
        i ∈ (assemble_video parsed_script encodeOk concatOk cwd output_dir
            output_filename).segments
          ↔ ∃ line, parsed_script[i]? = some line
              ∧ lineHasAssets line = true ∧ encodeOk i = true := by
  have hseg := assemble_video_segments parsed_script encodeOk concatOk cwd
    output_dir output_filename
  have hne : (assembleLoop encodeOk 0 parsed_script).1.isEmpty = false := by
    rw [hseg] at h
    cases hE : (assembleLoop encodeOk 0 parsed_script).1.isEmpty
    · rfl
    · exact absurd (List.isEmpty_iff.mp hE) h
  refine ⟨?_, ?_, ?_⟩
  · rw [hseg]
    unfold assemble_video
    rw [if_neg (by simp [hne])]
    by_cases h2 : concatOk = true
    · rw [if_pos h2]
    · rw [if_neg h2]
  · rw [hseg]
    exact assembleLoop_sorted encodeOk parsed_script 0
  · intro i
    rw [hseg, assembleLoop_mem]
    constructor
    · rintro ⟨_, line, hl, hA, hE⟩
      rw [Nat.sub_zero] at hl
      exact ⟨line, hl, hA, hE⟩
    · rintro ⟨line, hl, hA, hE⟩
      rw [← Nat.sub_zero i] at hl
      exact ⟨Nat.zero_le i, line, hl, hA, hE⟩

/-- Claim C3 witness: the C3 theorem on a one-line script whose line has both
assets and encodes successfully. -/
theorem claim_C3_witness :
    (assemble_video [{ speaker := some "A", text := some "t", audio_file := some "/a0.mp3", image_path := some "/f0.png" }] (fun _ => true) true "/cwd" "output" "final_video.mp4").manifest
      = (assemble_video [{ speaker := some "A", text := some "t", audio_file := some "/a0.mp3", image_path := some "/f0.png" }] (fun _ => true) true "/cwd" "output" "final_video.mp4").segments.map
          (fun i => manifestEntry (segmentPath "/cwd" (pathJoin "output" "temp") i)) :=
  (claim_C3 [{ speaker := some "A", text := some "t", audio_file := some "/a0.mp3", image_path := some "/f0.png" }] (fun _ => true) true "/cwd" "output" "final_video.mp4" (by decide)).1

/-- Claim C4: if zero script lines yield a built segment, `assemble_video`
returns `none` and the top-level "No segments created." error is emitted
exactly once — and when no line even has assets it is the only error-level
message, not one per line; otherwise (when the external concatenation
succeeds) it returns the absolute path of the concatenated output file. -/
theorem claim_C4 (parsed_script : List ScriptLine) (encodeOk : Nat → Bool)
    (concatOk : Bool) (cwd output_dir output_filename : String) :
    ((assemble_video parsed_script encodeOk concatOk cwd output_dir
        output_filename).segments = [] →
      (assemble_video parsed_script encodeOk concatOk cwd output_dir
          output_filename).result = none
      ∧ (assemble_video parsed_script encodeOk concatOk cwd output_dir
          output_filename).errors.count noSegmentsError = 1)
    ∧ ((∀ line ∈ parsed_script, lineHasAssets line = false) →
        (assemble_video parsed_script encodeOk concatOk cwd output_dir
            output_filename).errors = [noSegmentsError]
        ∧ (assemble_video parsed_script encodeOk concatOk cwd output_dir
            output_filename).result = none)
    ∧ ((assemble_video parsed_script encodeOk concatOk cwd output_dir
          output_filename).segments ≠ [] → concatOk = true →
        (assemble_video parsed_script encodeOk concatOk cwd output_dir
            output_filename).result
          = some (absPath cwd (pathJoin output_dir output_filename))) := by
  have hseg := assemble_video_segments parsed_script encodeOk concatOk cwd
    output_dir output_filename
  have hcnt : (assembleLoop encodeOk 0 parsed_script).2.count noSegmentsError = 0 := by
    rw [List.count_eq_zero]
    intro hmem
    obtain ⟨i, hi⟩ := assembleLoop_errors encodeOk parsed_script 0 noSegmentsError hmem
    exact ffmpegSegmentError_ne i hi.symm
  refine ⟨?_, ?_, ?_⟩
  · intro hs
    rw [hseg] at hs
    have hE : (assembleLoop encodeOk 0 parsed_script).1.isEmpty = true :=
      List.isEmpty_iff.mpr hs
    unfold assemble_video
    rw [if_pos hE]
    refine ⟨rfl, ?_⟩
    simp [List.count_append, hcnt]
  · intro hall
    have hloop := assembleLoop_no_assets encodeOk parsed_script 0 hall
    unfold assemble_video
    rw [hloop]
    simp
  · intro hs hc
    rw [hseg] at hs
    have hE : (assembleLoop encodeOk 0 parsed_script).1.isEmpty = false := by
      cases hE2 : (assembleLoop encodeOk 0 parsed_script).1.isEmpty
      · rfl
      · exact absurd (List.isEmpty_iff.mp hE2) hs
    unfold assemble_video
    rw [if_neg (by simp [hE]), if_pos hc]

/-- Claim C4 witness: the C4 theorem on the empty script (no segments, one
top-level error) and on a one-line script that assembles successfully. -/
theorem claim_C4_witness :
    ((assemble_video ([] : List ScriptLine) (fun _ => true) true "/c" "o"
        "f.mp4").result = none
      ∧ (assemble_video ([] : List ScriptLine) (fun _ => true) true "/c" "o"
          "f.mp4").errors.count noSegmentsError = 1)
    ∧ (assemble_video [{ speaker := some "A", text := some "t", audio_file := some "/a.mp3", image_path := some "/f.png" }] (fun _ => true) true "/c" "o" "f.mp4").result
        = some (absPath "/c" (pathJoin "o" "f.mp4")) :=
  ⟨(claim_C4 [] (fun _ => true) true "/c" "o" "f.mp4").1 (by decide),
   (claim_C4 [{ speaker := some "A", text := some "t", audio_file := some "/a.mp3", image_path := some "/f.png" }] (fun _ => true) true "/c" "o" "f.mp4").2.2 (by decide) rfl⟩

end CreateVideo
